import Mathlib

/-!
# ocredis: per-command tracing of a redis client

A shallow embedding of `src/ocredis/ocredis.go` (`PerCommandTracer`, `NewClient`).

The two functions of the package are closures over three external libraries
(`context`, `go.opencensus.io/trace`, `github.com/go-redis/redis`) and `fmt`.
The libraries are represented by the smallest interface the package uses:

* a context is a chain of derivations from `context.Background()`;
* every call into the tracing library is recorded, in order, as an `Event`;
  span identifiers come from the library's generator `nextSpanID`;
* a Go function with effects is an `Exec`: it maps the world before the call to
  the events it emitted, its outcome (a returned value or a panic) and the
  world after the call;
* a process hook `func(redis.Cmder) error` is a `Hook`; the error value it
  returns has a method `Error()` that returns a string or panics.
-/

namespace OCRedis

/-! ## Go values -/

/-- How a Go call terminates: it returns a value or it panics. -/
inductive Outcome (α : Type) where
  | ret (a : α) : Outcome α
  | panic (v : String) : Outcome α
deriving DecidableEq, Repr

/-- A non-nil Go `error` value. `ident` stands for the identity of the value (two
distinct error values may carry the same message); `message` is what a call of
its method `Error()` does: it returns a string, or it panics (a typed nil
pointer whose method dereferences the receiver, for one). -/
structure GoError where
  ident : Nat
  message : Outcome String
deriving DecidableEq, Repr

/-- A `redis.Cmder`: the interface value the hook receives. `Name` is what the
method `Name()` reports, `args` the remaining content of the command. -/
structure Cmder where
  Name : String
  args : List String
deriving DecidableEq, Repr

/-- A `context.Context`: `context.Background()` or a context derived from a parent,
either by `trace.NewContext` (which stores a span, here its identifier) or by
`context.WithValue`. -/
inductive Ctx where
  | background : Ctx
  | withSpan (parent : Ctx) (span : Nat) : Ctx
  | withValue (parent : Ctx) (key val : String) : Ctx
deriving DecidableEq, Repr

/-- The span a context carries (`trace.FromContext`): the nearest one on the chain. -/
def Ctx.span : Ctx → Option Nat
  | .background => none
  | .withSpan _ s => some s
  | .withValue p _ _ => p.span

/-- All span identifiers stored on the chain of a context. -/
def Ctx.spans : Ctx → List Nat
  | .background => []
  | .withSpan p s => s :: p.spans
  | .withValue p _ _ => p.spans

/-- The struct `trace.Status`. -/
structure Status where
  Code : Int
  Message : String
deriving DecidableEq, Repr

/-- The zero value of `trace.Status`: the status of a span on which `SetStatus`
was never called. -/
def Status.unset : Status := { Code := 0, Message := "" }

/-- The constant `trace.StatusCodeUnknown` of the tracing library. -/
def trace.StatusCodeUnknown : Int := 2

/-- The Go conversion `int32(n)`: wrap into the signed 32-bit range. -/
def int32 (n : Int) : Int := (n + 2 ^ 31) % 2 ^ 32 - 2 ^ 31

/-! ## `fmt.Sprintf` on string operands -/

/-- What `Sprintf` prints for a verb other than `%s` and `%v` applied to a string. -/
def fmt.badVerb (v : Char) (a : String) : List Char :=
  '%' :: '!' :: v :: ("(string=" ++ a ++ ")").data

/-- What `Sprintf` appends when operands are left over after the format is consumed. -/
def fmt.extra : List String → List Char
  | [] => []
  | a :: as =>
    "%!(EXTRA ".data ++ ("string=" ++ a).data
      ++ (as.map fun b => (", string=" ++ b).data).flatten ++ [')']

/-- The scanning loop of `fmt.Sprintf`, for operands that are all strings and a
format made of plain characters and one-letter verbs (no flags, width or
precision): `%%` prints a percent sign, `%s` and `%v` print the next operand
verbatim, every other character of the format is copied. The operand itself is
never scanned for verbs. -/
def fmt.doPrintf : List Char → List String → List Char
  | [], args => fmt.extra args
  | c :: format, args =>
    if c = '%' then
      match format with
      | [] => "%!(NOVERB)".data ++ fmt.extra args
      | v :: rest =>
        if v = '%' then '%' :: fmt.doPrintf rest args
        else
          match args with
          | [] => ('%' :: '!' :: v :: "(MISSING)".data) ++ fmt.doPrintf rest []
          | a :: as =>
            (if v = 's' ∨ v = 'v' then a.data else fmt.badVerb v a) ++ fmt.doPrintf rest as
    else c :: fmt.doPrintf format args

/-- The function `fmt.Sprintf(format, args...)` on string operands. -/
def fmt.Sprintf (format : String) (args : List String) : String :=
  String.mk (fmt.doPrintf format.data args)

/-! ## Effects -/

/-- One call into the tracing library, or one entry into a probed hook. -/
inductive Event where
  | startSpan (parent : Ctx) (name : String) (span : Nat) : Event
  | setStatus (span : Nat) (status : Status) : Event
  | endSpan (span : Nat) : Event
  | invoke (cmd : Cmder) : Event
deriving DecidableEq, Repr

/-- The world a call runs in: the span identifier generator of the tracing
library and everything else (`ext`: connections, the server, ...). -/
structure World (σ : Type) where
  nextSpanID : Nat
  ext : σ
deriving DecidableEq, Repr

/-- One execution: the events emitted (oldest first), the outcome, the world after. -/
structure Run (σ α : Type) where
  events : List Event
  outcome : Outcome α
  world : World σ

/-- A Go computation with effects. -/
def Exec (σ α : Type) : Type := World σ → Run σ α

/-- Return without any effect. -/
def Exec.pure {σ α : Type} (a : α) : Exec σ α :=
  fun w => { events := [], outcome := .ret a, world := w }

/-- Sequencing of statements: a panic of the first statement skips the rest. -/
def Exec.bind {σ α β : Type} (m : Exec σ α) (f : α → Exec σ β) : Exec σ β :=
  fun w =>
    let r := m w
    match r.outcome with
    | .ret a =>
      let r2 := f a r.world
      { events := r.events ++ r2.events, outcome := r2.outcome, world := r2.world }
    | .panic v => { events := r.events, outcome := .panic v, world := r.world }

instance {σ : Type} : Monad (Exec σ) where
  pure := Exec.pure
  bind := Exec.bind

/-- The method call `err.Error()` on a non-nil error value. -/
def GoError.Error {σ : Type} (e : GoError) : Exec σ String :=
  fun w => { events := [], outcome := e.message, world := w }

/-- A process hook, Go type `func(cmd redis.Cmder) error`; `none` is the nil error. -/
abbrev Hook (σ : Type) : Type := Cmder → Exec σ (Option GoError)

/-! ## The tracing library -/

/-- A `*trace.Span` handle. -/
structure Span where
  id : Nat
deriving DecidableEq, Repr

/-- The call `trace.StartSpan(ctx, name)`: a span with a fresh identifier is
started under `ctx`; the derived context and the span are returned. -/
def trace.StartSpan {σ : Type} (ctx : Ctx) (name : String) : Exec σ (Ctx × Span) :=
  fun w =>
    { events := [.startSpan ctx name w.nextSpanID]
      outcome := .ret (Ctx.withSpan ctx w.nextSpanID, { id := w.nextSpanID })
      world := { w with nextSpanID := w.nextSpanID + 1 } }

/-- The method `(*Span).SetStatus`. -/
def Span.SetStatus {σ : Type} (s : Span) (status : Status) : Exec σ Unit :=
  fun w => { events := [.setStatus s.id status], outcome := .ret (), world := w }

/-- The method `(*Span).End`. -/
def Span.End {σ : Type} (s : Span) : Exec σ Unit :=
  fun w => { events := [.endSpan s.id], outcome := .ret (), world := w }

/-! ## The package -/

/-- The function `PerCommandTracer` of `ocredis.go`. -/
def PerCommandTracer {σ : Type} (ctx : Ctx) : Hook σ → Hook σ :=
  fun fn => fun cmd => do
    let (_, span) ← trace.StartSpan ctx (fmt.Sprintf "redis-go/%s" [cmd.Name])
    let err ← fn cmd
    match err with
    | some e => do
      let message ← e.Error
      span.SetStatus { Code := int32 trace.StatusCodeUnknown, Message := message }
    | none => pure ()
    span.End
    return err

/-! ## The redis client -/

/-- The struct `redis.Options`, reduced to the field the package sets. -/
structure redis.Options where
  Addr : String
deriving DecidableEq, Repr

/-- The method `(*Options).init()`, on the field kept here: an empty address is
replaced by the default address of the library. -/
def redis.Options.init (opt : redis.Options) : redis.Options :=
  if opt.Addr = "" then { opt with Addr := "localhost:6379" } else opt

/-- A pipeline hook, Go type `func([]redis.Cmder) error`. -/
abbrev PipelineHook (σ : Type) : Type := List Cmder → Exec σ (Option GoError)

/-- A `*redis.Client`: its options, the context bound by `WithContext` (none
until then), the hook single commands are executed through, and the hooks the
commands of a pipeline and of a transaction are executed through. -/
structure redis.Client (σ : Type) where
  opt : redis.Options
  ctx : Option Ctx
  process : Hook σ
  processPipeline : PipelineHook σ
  processTxPipeline : PipelineHook σ

/-- The constructor `redis.NewClient(opt)`: the options are completed by `init`
and the three hooks are the default ones of an uninstrumented client, given
here as parameters. No connection is made at construction. -/
def redis.NewClient {σ : Type} (defaultProcess : Hook σ)
    (defaultProcessPipeline defaultProcessTxPipeline : PipelineHook σ)
    (opt : redis.Options) : redis.Client σ :=
  { opt := opt.init
    ctx := none
    process := defaultProcess
    processPipeline := defaultProcessPipeline
    processTxPipeline := defaultProcessTxPipeline }

/-- The method `(*Client).WithContext(ctx)`. -/
def redis.Client.WithContext {σ : Type} (c : redis.Client σ) (ctx : Ctx) : redis.Client σ :=
  { c with ctx := some ctx }

/-- The method `(*Client).Context()`: the bound context, else the background context. -/
def redis.Client.Context {σ : Type} (c : redis.Client σ) : Ctx :=
  match c.ctx with
  | some ctx => ctx
  | none => Ctx.background

/-- The method `(*Client).WrapProcess(fn)`: the hook of single commands is
replaced by `fn` applied to it; the pipeline hooks are left as they are. -/
def redis.Client.WrapProcess {σ : Type} (c : redis.Client σ) (fn : Hook σ → Hook σ) :
    redis.Client σ :=
  { c with process := fn c.process }

/-- The method `(*Client).Process(cmd)`: execute one command through the hook.
The command methods of the client (`HSet`, `HGet`, ...) end here. -/
def redis.Client.Process {σ : Type} (c : redis.Client σ) (cmd : Cmder) :
    Exec σ (Option GoError) :=
  c.process cmd

/-- The method `(*Client).Pipelined`: the commands queued on a pipeline of the
client are executed together through the pipeline hook. -/
def redis.Client.Pipelined {σ : Type} (c : redis.Client σ) (cmds : List Cmder) :
    Exec σ (Option GoError) :=
  c.processPipeline cmds

/-- The method `(*Client).TxPipelined`: the same through the transaction hook. -/
def redis.Client.TxPipelined {σ : Type} (c : redis.Client σ) (cmds : List Cmder) :
    Exec σ (Option GoError) :=
  c.processTxPipeline cmds

/-- The function `NewClient` of `ocredis.go`. -/
def NewClient {σ : Type} (defaultProcess : Hook σ)
    (defaultProcessPipeline defaultProcessTxPipeline : PipelineHook σ)
    (ctx : Ctx) (addr : String) : redis.Client σ :=
  let client :=
    (redis.NewClient defaultProcess defaultProcessPipeline defaultProcessTxPipeline
      { Addr := addr }).WithContext ctx
  client.WrapProcess (PerCommandTracer client.Context)

/-! ## Observations on runs -/

/-- The world in which the original hook runs: the one left by `trace.StartSpan`. -/
def afterStart {σ : Type} (w : World σ) : World σ :=
  { w with nextSpanID := w.nextSpanID + 1 }

/-- Whether an event is a call of `trace.StartSpan`. -/
def Event.isStart : Event → Bool
  | .startSpan _ _ _ => true
  | _ => false

/-- Whether an event is a call of `End`. -/
def Event.isEnd : Event → Bool
  | .endSpan _ => true
  | _ => false

/-- Whether an event is a call of `SetStatus`. -/
def Event.isSetStatus : Event → Bool
  | .setStatus _ _ => true
  | _ => false

/-- Whether an event is an entry into a probed hook. -/
def Event.isInvoke : Event → Bool
  | .invoke _ => true
  | _ => false

/-- The status a span has after a sequence of events: the one of the last
`SetStatus` on it, the zero value when there was none. -/
def spanStatus (id : Nat) (events : List Event) : Status :=
  events.foldl
    (fun st e =>
      match e with
      | .setStatus i s => if i = id then s else st
      | _ => st)
    Status.unset

/-- An event with its span identifier renamed. -/
def Event.rename (ρ : Nat → Nat) : Event → Event
  | .startSpan p n i => .startSpan p n (ρ i)
  | .setStatus i s => .setStatus (ρ i) s
  | .endSpan i => .endSpan (ρ i)
  | .invoke c => .invoke c

/-- The end of one invocation of the wrapped hook in closed form, as a function
of the identifier of its span and of the outcome of the original hook alone: the
calls made after the original hook terminated, and the outcome for the caller. -/
def closing (id : Nat) : Outcome (Option GoError) → List Event × Outcome (Option GoError)
  | .panic v => ([], .panic v)
  | .ret none => ([.endSpan id], .ret none)
  | .ret (some e) =>
    match e.message with
    | .ret m =>
      ([.setStatus id { Code := int32 trace.StatusCodeUnknown, Message := m }, .endSpan id],
        .ret (some e))
    | .panic v => ([], .panic v)

/-- A hook made observable: entering it is recorded as an `invoke` event that
carries the command it received; otherwise it is the hook `fn`. -/
def probe {σ : Type} (fn : Hook σ) : Hook σ :=
  fun cmd w =>
    { events := Event.invoke cmd :: (fn cmd w).events
      outcome := (fn cmd w).outcome
      world := (fn cmd w).world }

/-- A caller that executes commands one after the other through a hook and
ignores the errors returned. -/
def runAll {σ : Type} (h : Hook σ) : List Cmder → Exec σ Unit
  | [] => pure ()
  | c :: cs => do
    let _ ← h c
    runAll h cs

/-- The events of a sequence of calls of the wrapped hook, call by call, each
written from the context, the name of its command, the identifier drawn for its
span and the run of the original hook in that call; a panic ends the sequence. -/
def tracedCalls {σ : Type} (ctx : Ctx) (fn : Hook σ) :
    List Cmder → World σ → List (List Event)
  | [], _ => []
  | c :: cs, w =>
    match (closing w.nextSpanID (fn c (afterStart w)).outcome).2 with
    | .ret _ =>
      (Event.startSpan ctx ("redis-go/" ++ c.Name) w.nextSpanID
          :: ((fn c (afterStart w)).events
            ++ (closing w.nextSpanID (fn c (afterStart w)).outcome).1))
        :: tracedCalls ctx fn cs (fn c (afterStart w)).world
    | .panic _ =>
      [Event.startSpan ctx ("redis-go/" ++ c.Name) w.nextSpanID
          :: ((fn c (afterStart w)).events
            ++ (closing w.nextSpanID (fn c (afterStart w)).outcome).1)]

/-- A hook that keeps the discipline of the tracing library with respect to
`ctx`: it never moves the identifier generator backwards, and every span it
starts is started under `ctx` with an identifier drawn during the call. -/
def TracesUnder {σ : Type} (ctx : Ctx) (h : Hook σ) : Prop :=
  ∀ (c : Cmder) (w : World σ),
    w.nextSpanID ≤ (h c w).world.nextSpanID ∧
    ∀ p n i, Event.startSpan p n i ∈ (h c w).events →
      p = ctx ∧ w.nextSpanID ≤ i ∧ i < (h c w).world.nextSpanID

/-! ## Sample hooks and inputs -/

/-- A hook that returns nil and does nothing else. -/
def hookNil : Hook Unit :=
  fun _ w => { events := [], outcome := .ret none, world := w }

/-- A hook that returns the error `e` and does nothing else. -/
def hookErr (e : GoError) : Hook Unit :=
  fun _ w => { events := [], outcome := .ret (some e), world := w }

/-- A hook that panics. -/
def hookPanic : Hook Unit :=
  fun _ w => { events := [], outcome := .panic "boom", world := w }

/-- A pipeline hook that returns nil and does nothing else. -/
def pipelineNil : PipelineHook Unit :=
  fun _ w => { events := [], outcome := .ret none, world := w }

/-- The error of the scenario of the specification. -/
def connRefused : GoError := { ident := 7, message := .ret "connection refused" }

/-- A non-nil error value whose method `Error()` panics. -/
def brokenError : GoError := { ident := 9, message := .panic "nil pointer dereference" }

/-- A world in which no span was started yet. -/
def world0 : World Unit := { nextSpanID := 0, ext := () }

/-! ## Basic facts -/

theorem sprintf_redis_go (name : String) :
    fmt.Sprintf "redis-go/%s" [name] = "redis-go/" ++ name := by
  simp [fmt.Sprintf, fmt.doPrintf, fmt.extra]
  rfl

theorem int32_unknown : int32 trace.StatusCodeUnknown = 2 := by decide

/-- The run of the wrapped hook in closed form. -/
theorem run_eq {σ : Type} (ctx : Ctx) (fn : Hook σ) (cmd : Cmder) (w : World σ) :
    PerCommandTracer ctx fn cmd w =
      { events := Event.startSpan ctx ("redis-go/" ++ cmd.Name) w.nextSpanID
          :: ((fn cmd (afterStart w)).events
            ++ (closing w.nextSpanID (fn cmd (afterStart w)).outcome).1)
        outcome := (closing w.nextSpanID (fn cmd (afterStart w)).outcome).2
        world := (fn cmd (afterStart w)).world } := by
  simp only [PerCommandTracer, bind, Exec.bind, trace.StartSpan, sprintf_redis_go]
  have hw : ({ nextSpanID := w.nextSpanID + 1, ext := w.ext } : World σ) = afterStart w := rfl
  simp only [hw]
  cases h : (fn cmd (afterStart w)).outcome with
  | ret err =>
    cases err with
    | none => simp [closing, Span.End, pure, Exec.pure, Exec.bind]
    | some e =>
      cases hm : e.message with
      | ret m =>
        simp [closing, hm, Span.End, Span.SetStatus, GoError.Error, pure, Exec.pure, Exec.bind]
      | panic v =>
        simp [closing, hm, Span.End, Span.SetStatus, GoError.Error, pure, Exec.pure, Exec.bind]
  | panic v => simp [closing]

/-- The run of the wrapped hook when the original hook returns nil. -/
theorem run_of_nil {σ : Type} (ctx : Ctx) (fn : Hook σ) (cmd : Cmder) (w : World σ)
    (h : (fn cmd (afterStart w)).outcome = .ret none) :
    PerCommandTracer ctx fn cmd w =
      { events := Event.startSpan ctx ("redis-go/" ++ cmd.Name) w.nextSpanID
          :: ((fn cmd (afterStart w)).events ++ [Event.endSpan w.nextSpanID])
        outcome := .ret none
        world := (fn cmd (afterStart w)).world } := by
  rw [run_eq, h]
  rfl

/-- The run of the wrapped hook when the original hook returns an error whose
method `Error()` returns `m`. -/
theorem run_of_error {σ : Type} (ctx : Ctx) (fn : Hook σ) (cmd : Cmder) (w : World σ)
    (e : GoError) (m : String) (h : (fn cmd (afterStart w)).outcome = .ret (some e))
    (hm : e.message = .ret m) :
    PerCommandTracer ctx fn cmd w =
      { events := Event.startSpan ctx ("redis-go/" ++ cmd.Name) w.nextSpanID
          :: ((fn cmd (afterStart w)).events
            ++ [Event.setStatus w.nextSpanID { Code := 2, Message := m },
                Event.endSpan w.nextSpanID])
        outcome := .ret (some e)
        world := (fn cmd (afterStart w)).world } := by
  rw [run_eq, h]
  simp [closing, hm, int32_unknown]

/-- The run of the wrapped hook when the original hook returns an error whose
method `Error()` panics. -/
theorem run_of_broken_error {σ : Type} (ctx : Ctx) (fn : Hook σ) (cmd : Cmder) (w : World σ)
    (e : GoError) (v : String) (h : (fn cmd (afterStart w)).outcome = .ret (some e))
    (hm : e.message = .panic v) :
    PerCommandTracer ctx fn cmd w =
      { events := Event.startSpan ctx ("redis-go/" ++ cmd.Name) w.nextSpanID
          :: (fn cmd (afterStart w)).events
        outcome := .panic v
        world := (fn cmd (afterStart w)).world } := by
  rw [run_eq, h]
  simp [closing, hm]

/-- The run of the wrapped hook when the original hook panics. -/
theorem run_of_panic {σ : Type} (ctx : Ctx) (fn : Hook σ) (cmd : Cmder) (w : World σ)
    (v : String) (h : (fn cmd (afterStart w)).outcome = .panic v) :
    PerCommandTracer ctx fn cmd w =
      { events := Event.startSpan ctx ("redis-go/" ++ cmd.Name) w.nextSpanID
          :: (fn cmd (afterStart w)).events
        outcome := .panic v
        world := (fn cmd (afterStart w)).world } := by
  rw [run_eq, h]
  simp [closing]

/-- The first event of the wrapped hook is the start of its span. -/
theorem head_eq {σ : Type} (ctx : Ctx) (fn : Hook σ) (cmd : Cmder) (w : World σ) :
    (PerCommandTracer ctx fn cmd w).events.head? =
      some (Event.startSpan ctx ("redis-go/" ++ cmd.Name) w.nextSpanID) := by
  rw [run_eq]
  rfl

/-- No call made after the original hook starts a span. -/
theorem closing_no_start (id : Nat) (out : Outcome (Option GoError)) :
    ∀ e ∈ (closing id out).1, e.isStart = false := by
  intro e he
  cases out with
  | panic v => simp [closing] at he
  | ret err =>
    cases err with
    | none =>
      simp only [closing, List.mem_singleton] at he
      rw [he]; rfl
    | some x =>
      cases hm : x.message with
      | ret m =>
        simp only [closing, hm, List.mem_cons, List.mem_singleton, List.not_mem_nil,
          or_false] at he
        rcases he with he | he <;> (rw [he]; rfl)
      | panic v => simp [closing, hm] at he

theorem spanStatus_append_set (id : Nat) (st : Status) (es : List Event) :
    spanStatus id (es ++ [Event.setStatus id st]) = st := by
  simp [spanStatus, List.foldl_append]

theorem spanStatus_of_no_set (id : Nat) (es : List Event)
    (h : ∀ st, Event.setStatus id st ∉ es) : spanStatus id es = Status.unset := by
  unfold spanStatus
  suffices H : ∀ (init : Status), es.foldl
      (fun st e =>
        match e with
        | .setStatus i s => if i = id then s else st
        | _ => st) init = init from H _
  induction es with
  | nil => intro init; rfl
  | cons e es ih =>
    intro init
    have ih2 := ih (fun st hm => h st (List.mem_cons_of_mem _ hm))
    cases e with
    | setStatus i s =>
      have hne : i ≠ id := by
        intro hi
        exact h s (by rw [hi]; exact List.mem_cons_self _ _)
      simp only [List.foldl_cons, if_neg hne]
      exact ih2 init
    | startSpan p n i => simpa only [List.foldl_cons] using ih2 init
    | endSpan i => simpa only [List.foldl_cons] using ih2 init
    | invoke c => simpa only [List.foldl_cons] using ih2 init

theorem getLast_snoc {α : Type} (a : α) (l : List α) (x : α) :
    (a :: (l ++ [x])).getLast? = some x := by
  rw [← List.cons_append, List.getLast?_append]
  simp

theorem getLast_snoc2 {α : Type} (a : α) (l : List α) (y x : α) :
    (a :: (l ++ [y, x])).getLast? = some x := by
  rw [← List.cons_append, List.getLast?_append]
  simp

theorem Ctx.withSpan_ne (ctx : Ctx) : ∀ j : Nat, Ctx.withSpan ctx j ≠ ctx := by
  induction ctx with
  | background => intro j h; cases h
  | withSpan p s ih =>
    intro j h
    injection h with h1 h2
    exact ih s h1
  | withValue p k v _ => intro j h; cases h

theorem Ctx.span_mem_spans (ctx : Ctx) (s : Nat) (h : ctx.span = some s) :
    s ∈ ctx.spans := by
  induction ctx with
  | background => cases h
  | withSpan p t _ =>
    simp only [Ctx.span, Option.some.injEq] at h
    simp [Ctx.spans, h]
  | withValue p k v ih => exact ih h

/-- The wrapped hook keeps the discipline of the hook it wraps. -/
theorem tracesUnder_wrap {σ : Type} (ctx : Ctx) (fn : Hook σ) (hfn : TracesUnder ctx fn) :
    TracesUnder ctx (PerCommandTracer ctx fn) := by
  intro c w
  have hf := hfn c (afterStart w)
  have hw : (afterStart w).nextSpanID = w.nextSpanID + 1 := rfl
  rw [hw] at hf
  obtain ⟨hmono, hst⟩ := hf
  rw [run_eq]
  refine ⟨by simp only; omega, ?_⟩
  intro p n i hm
  rcases List.mem_cons.mp hm with hh | hh
  · injection hh with h1 h2 h3
    exact ⟨h1, by omega, by simp only; omega⟩
  · rcases List.mem_append.mp hh with hh | hh
    · obtain ⟨a, b, c⟩ := hst p n i hh
      exact ⟨a, by omega, c⟩
    · have := closing_no_start _ _ _ hh
      simp [Event.isStart] at this

theorem runAll_cons {σ : Type} (h : Hook σ) (c : Cmder) (cs : List Cmder) (w : World σ) :
    runAll h (c :: cs) w =
      match (h c w).outcome with
      | .ret _ =>
        { events := (h c w).events ++ (runAll h cs (h c w).world).events
          outcome := (runAll h cs (h c w).world).outcome
          world := (runAll h cs (h c w).world).world }
      | .panic v => { events := (h c w).events, outcome := .panic v, world := (h c w).world } := by
  simp only [runAll, bind, Exec.bind]
  cases (h c w).outcome <;> rfl

/-- A caller of a disciplined hook sees only spans started under `ctx`, each
with an identifier drawn after the caller began. -/
theorem runAll_traces {σ : Type} (ctx : Ctx) (h : Hook σ) (hh : TracesUnder ctx h)
    (cmds : List Cmder) :
    ∀ w : World σ, w.nextSpanID ≤ (runAll h cmds w).world.nextSpanID ∧
      ∀ p n i, Event.startSpan p n i ∈ (runAll h cmds w).events →
        p = ctx ∧ w.nextSpanID ≤ i ∧ i < (runAll h cmds w).world.nextSpanID := by
  induction cmds with
  | nil =>
    intro w
    refine ⟨Nat.le_refl _, ?_⟩
    intro p n i hm
    cases hm
  | cons c cs ih =>
    intro w
    obtain ⟨hmono, hst⟩ := hh c w
    obtain ⟨imono, ist⟩ := ih (h c w).world
    rw [runAll_cons]
    cases ho : (h c w).outcome with
    | ret err =>
      simp only
      refine ⟨by omega, ?_⟩
      intro p n i hm
      rcases List.mem_append.mp hm with hm | hm
      · obtain ⟨a, b, c⟩ := hst p n i hm
        exact ⟨a, b, by omega⟩
      · obtain ⟨a, b, c⟩ := ist p n i hm
        exact ⟨a, by omega, c⟩
    | panic v =>
      simp only
      exact ⟨hmono, hst⟩

theorem tracesUnder_hookNil (ctx : Ctx) : TracesUnder ctx hookNil := by
  intro c w
  refine ⟨Nat.le_refl _, ?_⟩
  intro p n i hm
  cases hm

/-- The calls made after the original hook follow a renaming of the span. -/
theorem closing_rename (ρ : Nat → Nat) (id : Nat) (out : Outcome (Option GoError)) :
    (closing id out).1.map (Event.rename ρ) = (closing (ρ id) out).1 ∧
    (closing id out).2 = (closing (ρ id) out).2 := by
  cases out with
  | panic v => exact ⟨rfl, rfl⟩
  | ret err =>
    cases err with
    | none => exact ⟨rfl, rfl⟩
    | some e =>
      cases hm : e.message with
      | ret m => simp [closing, hm, Event.rename]
      | panic v => simp [closing, hm]

/-- The events of a sequence of calls of the wrapped hook are those of the
calls, one after the other. -/
theorem runAll_traced {σ : Type} (ctx : Ctx) (fn : Hook σ) (cmds : List Cmder) :
    ∀ w : World σ,
      (runAll (PerCommandTracer ctx fn) cmds w).events = (tracedCalls ctx fn cmds w).flatten := by
  induction cmds with
  | nil => intro w; rfl
  | cons c cs ih =>
    intro w
    rw [runAll_cons]
    simp only [tracedCalls, run_eq]
    cases ho : (closing w.nextSpanID (fn c (afterStart w)).outcome).2 with
    | ret err =>
      simp only [List.flatten_cons]
      rw [← ih]
    | panic v => simp

/-! ## The claims -/

/-- C4 (span naming): for every command, in every world and whatever the
original hook does, the span the wrapped hook starts is named `redis-go/`
followed by `cmd.Name()`: the format has one verb and the name is its operand,
printed verbatim. This covers the empty name and names with `%` or `/`. -/
theorem tracer_names_span {σ : Type} (ctx : Ctx) (fn : Hook σ) (cmd : Cmder) (w : World σ) :
    fmt.Sprintf "redis-go/%s" [cmd.Name] = "redis-go/" ++ cmd.Name ∧
    (PerCommandTracer ctx fn cmd w).events.head?
      = some (Event.startSpan ctx ("redis-go/" ++ cmd.Name) w.nextSpanID) ∧
    (cmd.Name = "HSET" → (PerCommandTracer ctx fn cmd w).events.head?
      = some (Event.startSpan ctx "redis-go/HSET" w.nextSpanID)) ∧
    (cmd.Name = "" → (PerCommandTracer ctx fn cmd w).events.head?
      = some (Event.startSpan ctx "redis-go/" w.nextSpanID)) ∧
    (cmd.Name = "%s/%d%%" → (PerCommandTracer ctx fn cmd w).events.head?
      = some (Event.startSpan ctx "redis-go/%s/%d%%" w.nextSpanID)) := by
  refine ⟨sprintf_redis_go _, head_eq ctx fn cmd w, ?_, ?_, ?_⟩
  · intro hn
    rw [head_eq, hn]
    rfl
  · intro hn
    rw [head_eq, hn]
    rfl
  · intro hn
    rw [head_eq, hn]
    rfl

/-- Witness of C4: the command `HSET` of the scenario of the specification. -/
theorem tracer_names_span_witness :
    (PerCommandTracer Ctx.background hookNil ⟨"HSET", []⟩ world0).events.head?
      = some (Event.startSpan Ctx.background "redis-go/HSET" world0.nextSpanID) :=
  (tracer_names_span Ctx.background hookNil ⟨"HSET", []⟩ world0).2.2.1 rfl

/-- C7 (span parent): let the wrapped hook be built from `ctx`, around a hook
that keeps the discipline of the tracing library (for one, a hook that starts no
span), and let the spans stored in `ctx` predate the world `w`. Then, in every
invocation, the span is started with `ctx` itself as parent context; and in a
sequence of commands run from `w`, through the wrapped hook or through the
wrapped hook wrapped again, every span is started under `ctx`, never under the
context a `StartSpan` returned, and the span `ctx` carries is none of the spans
started: they are siblings. -/
theorem tracer_spans_are_siblings {σ : Type} (ctx : Ctx) (fn : Hook σ)
    (hfn : TracesUnder ctx fn)
    (cmds : List Cmder) (w : World σ) (hctx : ∀ s ∈ ctx.spans, s < w.nextSpanID) :
    (∀ (cmd : Cmder) (w1 : World σ),
      (PerCommandTracer ctx fn cmd w1).events.head?
        = some (Event.startSpan ctx ("redis-go/" ++ cmd.Name) w1.nextSpanID)) ∧
    (∀ p n i, Event.startSpan p n i ∈ (runAll (PerCommandTracer ctx fn) cmds w).events →
      p = ctx ∧
      ∀ q m j, Event.startSpan q m j ∈ (runAll (PerCommandTracer ctx fn) cmds w).events →
        p ≠ Ctx.withSpan ctx j ∧ p.span ≠ some j) ∧
    (∀ p n i,
      Event.startSpan p n i
        ∈ (runAll (PerCommandTracer ctx (PerCommandTracer ctx fn)) cmds w).events →
      p = ctx ∧
      ∀ q m j,
        Event.startSpan q m j
          ∈ (runAll (PerCommandTracer ctx (PerCommandTracer ctx fn)) cmds w).events →
        p ≠ Ctx.withSpan ctx j ∧ p.span ≠ some j) := by
  have sib : ∀ h : Hook σ, TracesUnder ctx h →
      ∀ p n i, Event.startSpan p n i ∈ (runAll h cmds w).events →
        p = ctx ∧ ∀ q m j, Event.startSpan q m j ∈ (runAll h cmds w).events →
          p ≠ Ctx.withSpan ctx j ∧ p.span ≠ some j := by
    intro h hh p n i hm
    have hp := ((runAll_traces ctx h hh cmds w).2 p n i hm).1
    refine ⟨hp, ?_⟩
    intro q m j hq
    have hj := ((runAll_traces ctx h hh cmds w).2 q m j hq).2.1
    rw [hp]
    refine ⟨fun he => Ctx.withSpan_ne ctx j he.symm, ?_⟩
    intro hs
    have := hctx j (Ctx.span_mem_spans ctx j hs)
    omega
  exact ⟨fun cmd w1 => head_eq ctx fn cmd w1,
    sib _ (tracesUnder_wrap ctx fn hfn),
    sib _ (tracesUnder_wrap ctx _ (tracesUnder_wrap ctx fn hfn))⟩

/-- Witness of C7: two commands through a doubly wrapped hook, under a context
that carries span 0, in a world whose next span is 1: four spans, all under the
same context. -/
theorem tracer_spans_are_siblings_witness :
    (runAll (PerCommandTracer (Ctx.withSpan Ctx.background 0)
        (PerCommandTracer (Ctx.withSpan Ctx.background 0) hookNil))
        [⟨"HSET", []⟩, ⟨"HGET", []⟩] { nextSpanID := 1, ext := () }).events
      = [Event.startSpan (Ctx.withSpan Ctx.background 0) "redis-go/HSET" 1,
         Event.startSpan (Ctx.withSpan Ctx.background 0) "redis-go/HSET" 2,
         Event.endSpan 2, Event.endSpan 1,
         Event.startSpan (Ctx.withSpan Ctx.background 0) "redis-go/HGET" 3,
         Event.startSpan (Ctx.withSpan Ctx.background 0) "redis-go/HGET" 4,
         Event.endSpan 4, Event.endSpan 3] ∧
    (∀ p n i,
      Event.startSpan p n i
        ∈ (runAll (PerCommandTracer (Ctx.withSpan Ctx.background 0)
            (PerCommandTracer (Ctx.withSpan Ctx.background 0) hookNil))
            [⟨"HSET", []⟩, ⟨"HGET", []⟩] { nextSpanID := 1, ext := () }).events →
      p = Ctx.withSpan Ctx.background 0) :=
  ⟨by
    simp only [runAll_cons]
    rw [run_of_nil _ (PerCommandTracer _ hookNil) _ _ (by rw [run_of_nil _ hookNil _ _ rfl])]
    simp only [run_of_nil _ hookNil _ _ rfl]
    rw [run_of_nil _ (PerCommandTracer _ hookNil) _ _ (by rw [run_of_nil _ hookNil _ _ rfl])]
    simp only [run_of_nil _ hookNil _ _ rfl]
    rfl,
   fun p n i hm =>
    ((tracer_spans_are_siblings (Ctx.withSpan Ctx.background 0) hookNil
      (tracesUnder_hookNil _) [⟨"HSET", []⟩, ⟨"HGET", []⟩] { nextSpanID := 1, ext := () }
      (by intro s hs; simp [Ctx.spans] at hs; simp [hs])).2.2 p n i hm).1⟩

/-- C1, as stated, fails: a hook that returns a non-nil error whose method
`Error()` panics makes the wrapped hook panic, in the evaluation of the argument
of `SetStatus`; the error value is not returned. -/
theorem tracer_panics_when_error_method_panics :
    (hookErr brokenError ⟨"HGET", []⟩ (afterStart world0)).outcome
      = .ret (some brokenError) ∧
    (PerCommandTracer Ctx.background (hookErr brokenError) ⟨"HGET", []⟩ world0).outcome
      = .panic "nil pointer dereference" ∧
    (PerCommandTracer Ctx.background (hookErr brokenError) ⟨"HGET", []⟩ world0).outcome
      ≠ .ret (some brokenError) := by
  rw [run_of_broken_error Ctx.background (hookErr brokenError) ⟨"HGET", []⟩ world0
    brokenError "nil pointer dereference" rfl rfl]
  refine ⟨rfl, rfl, ?_⟩
  intro h
  cases h

/-- C1, amended (error transparency): in every world, the wrapped hook returns
nil when the original hook returns nil, and returns the same error value,
identity included, when the original hook returns an error whose method
`Error()` returns; when that method panics, the wrapped hook panics with the
same value instead of returning. -/
theorem tracer_returns_inner_outcome {σ : Type} (ctx : Ctx) (fn : Hook σ)
    (cmd : Cmder) (w : World σ) :
    ((fn cmd (afterStart w)).outcome = .ret none →
      (PerCommandTracer ctx fn cmd w).outcome = .ret none) ∧
    (∀ (e : GoError) (m : String), (fn cmd (afterStart w)).outcome = .ret (some e) →
      e.message = .ret m → (PerCommandTracer ctx fn cmd w).outcome = .ret (some e)) ∧
    (∀ (e : GoError) (v : String), (fn cmd (afterStart w)).outcome = .ret (some e) →
      e.message = .panic v → (PerCommandTracer ctx fn cmd w).outcome = .panic v) := by
  refine ⟨?_, ?_, ?_⟩
  · intro h
    rw [run_of_nil ctx fn cmd w h]
  · intro e m h hm
    rw [run_of_error ctx fn cmd w e m h hm]
  · intro e v h hm
    rw [run_of_broken_error ctx fn cmd w e v h hm]

/-- Witness of C1, amended: the error of the scenario comes back as the same value. -/
theorem tracer_returns_inner_outcome_witness :
    (PerCommandTracer Ctx.background (hookErr connRefused) ⟨"HGET", []⟩ world0).outcome
      = .ret (some connRefused) :=
  (tracer_returns_inner_outcome Ctx.background (hookErr connRefused) ⟨"HGET", []⟩ world0).2.1
    connRefused "connection refused" rfl rfl

/-- C2, as stated, fails: a hook that returns a non-nil error whose method
`Error()` panics leaves one `StartSpan` call and no `End` call. -/
theorem tracer_starts_without_end_when_error_method_panics :
    (hookErr brokenError ⟨"HGET", []⟩ (afterStart world0)).outcome
      = .ret (some brokenError) ∧
    (PerCommandTracer Ctx.background (hookErr brokenError) ⟨"HGET", []⟩ world0).events.countP
      Event.isStart = 1 ∧
    (PerCommandTracer Ctx.background (hookErr brokenError) ⟨"HGET", []⟩ world0).events.countP
      Event.isEnd = 0 := by
  rw [run_of_broken_error Ctx.background (hookErr brokenError) ⟨"HGET", []⟩ world0
    brokenError "nil pointer dereference" rfl rfl]
  exact ⟨rfl, rfl, rfl⟩

/-- C2, amended (span pairing): when the original hook returns nil, or returns
an error whose method `Error()` returns, one invocation of the wrapped hook adds
exactly one `StartSpan` call and exactly one `End` call to those the original
hook makes itself; the span started is the first event, the span ended is the
last event, and both are the same span. -/
theorem tracer_pairs_start_and_end {σ : Type} (ctx : Ctx) (fn : Hook σ)
    (cmd : Cmder) (w : World σ)
    (err : Option GoError) (h : (fn cmd (afterStart w)).outcome = .ret err)
    (hmsg : ∀ e, err = some e → ∃ m, e.message = .ret m) :
    (PerCommandTracer ctx fn cmd w).events.countP Event.isStart
      = (fn cmd (afterStart w)).events.countP Event.isStart + 1 ∧
    (PerCommandTracer ctx fn cmd w).events.countP Event.isEnd
      = (fn cmd (afterStart w)).events.countP Event.isEnd + 1 ∧
    (PerCommandTracer ctx fn cmd w).events.head?
      = some (Event.startSpan ctx ("redis-go/" ++ cmd.Name) w.nextSpanID) ∧
    (PerCommandTracer ctx fn cmd w).events.getLast? = some (Event.endSpan w.nextSpanID) := by
  cases err with
  | none =>
    rw [run_of_nil ctx fn cmd w h]
    simp [List.countP_cons, List.countP_append, Event.isStart, Event.isEnd,
      getLast_snoc, getLast_snoc2]
  | some e =>
    obtain ⟨m, hm⟩ := hmsg e rfl
    rw [run_of_error ctx fn cmd w e m h hm]
    simp [List.countP_cons, List.countP_append, Event.isStart, Event.isEnd,
      getLast_snoc, getLast_snoc2]

/-- Witness of C2, amended: a hook that returns an error, in a world without spans. -/
theorem tracer_pairs_start_and_end_witness :
    (PerCommandTracer Ctx.background (hookErr connRefused) ⟨"HGET", []⟩ world0).events.countP
        Event.isStart
      = ((hookErr connRefused) ⟨"HGET", []⟩ (afterStart world0)).events.countP Event.isStart + 1 ∧
    (PerCommandTracer Ctx.background (hookErr connRefused) ⟨"HGET", []⟩ world0).events.countP
        Event.isEnd
      = ((hookErr connRefused) ⟨"HGET", []⟩ (afterStart world0)).events.countP Event.isEnd + 1 ∧
    (PerCommandTracer Ctx.background (hookErr connRefused) ⟨"HGET", []⟩ world0).events.head?
      = some (Event.startSpan Ctx.background ("redis-go/" ++ "HGET") world0.nextSpanID) ∧
    (PerCommandTracer Ctx.background (hookErr connRefused) ⟨"HGET", []⟩ world0).events.getLast?
      = some (Event.endSpan world0.nextSpanID) :=
  tracer_pairs_start_and_end Ctx.background (hookErr connRefused) ⟨"HGET", []⟩ world0
    (some connRefused) rfl
    (fun e he => ⟨"connection refused", by cases he; rfl⟩)

/-- C3, as stated, fails: a hook that returns a non-nil error whose method
`Error()` panics leaves the span without any status and without an end: the
start of the span is the only event. -/
theorem tracer_sets_no_status_when_error_method_panics :
    (hookErr brokenError ⟨"HGET", []⟩ (afterStart world0)).outcome
      = .ret (some brokenError) ∧
    (PerCommandTracer Ctx.background (hookErr brokenError) ⟨"HGET", []⟩ world0).events
      = [Event.startSpan Ctx.background "redis-go/HGET" 0] ∧
    spanStatus 0
        (PerCommandTracer Ctx.background (hookErr brokenError) ⟨"HGET", []⟩ world0).events
      = { Code := 0, Message := "" } ∧
    Event.endSpan 0
      ∉ (PerCommandTracer Ctx.background (hookErr brokenError) ⟨"HGET", []⟩ world0).events := by
  rw [run_of_broken_error Ctx.background (hookErr brokenError) ⟨"HGET", []⟩ world0
    brokenError "nil pointer dereference" rfl rfl]
  refine ⟨rfl, rfl, rfl, ?_⟩
  simp [hookErr]

/-- C3, amended (error annotation): when the original hook returns a non-nil
error `e` whose method `Error()` returns `m`, the last call of the wrapped hook
is `End` on its span, and after all the events before that call the status of
the span has code `trace.StatusCodeUnknown`, which is 2, and message `m`; the
error returned is `e`. -/
theorem tracer_annotates_error {σ : Type} (ctx : Ctx) (fn : Hook σ)
    (cmd : Cmder) (w : World σ)
    (e : GoError) (m : String) (h : (fn cmd (afterStart w)).outcome = .ret (some e))
    (hm : e.message = .ret m) :
    (∃ before : List Event,
      (PerCommandTracer ctx fn cmd w).events = before ++ [Event.endSpan w.nextSpanID] ∧
      spanStatus w.nextSpanID before
        = { Code := trace.StatusCodeUnknown, Message := m }) ∧
    trace.StatusCodeUnknown = 2 ∧
    (PerCommandTracer ctx fn cmd w).outcome = .ret (some e) := by
  rw [run_of_error ctx fn cmd w e m h hm]
  refine ⟨⟨Event.startSpan ctx ("redis-go/" ++ cmd.Name) w.nextSpanID
      :: ((fn cmd (afterStart w)).events
        ++ [Event.setStatus w.nextSpanID { Code := 2, Message := m }]), ?_, ?_⟩, rfl, rfl⟩
  · simp
  · rw [← List.cons_append, spanStatus_append_set]
    rfl

/-- Witness of C3, amended: the scenario of the specification, command `HGET`
and inner error `connection refused`. -/
theorem tracer_annotates_error_witness :
    (∃ before : List Event,
      (PerCommandTracer Ctx.background (hookErr connRefused) ⟨"HGET", []⟩ world0).events
        = before ++ [Event.endSpan world0.nextSpanID] ∧
      spanStatus world0.nextSpanID before
        = { Code := trace.StatusCodeUnknown, Message := "connection refused" }) ∧
    trace.StatusCodeUnknown = 2 ∧
    (PerCommandTracer Ctx.background (hookErr connRefused) ⟨"HGET", []⟩ world0).outcome
      = .ret (some connRefused) :=
  tracer_annotates_error Ctx.background (hookErr connRefused) ⟨"HGET", []⟩ world0
    connRefused "connection refused" rfl rfl

/-- C5, as stated, fails in the direction from a returned error to a status:
a hook that returns a non-nil error whose method `Error()` panics gets no
`SetStatus` call from the wrapped hook. -/
theorem tracer_skips_status_when_error_method_panics :
    (hookErr brokenError ⟨"HGET", []⟩ (afterStart world0)).outcome
      = .ret (some brokenError) ∧
    (PerCommandTracer Ctx.background (hookErr brokenError) ⟨"HGET", []⟩ world0).events.countP
      Event.isSetStatus = 0 := by
  rw [run_of_broken_error Ctx.background (hookErr brokenError) ⟨"HGET", []⟩ world0
    brokenError "nil pointer dereference" rfl rfl]
  exact ⟨rfl, rfl⟩

/-- C5, amended (no status on success): when the original hook returns nil, the
wrapped hook adds no `SetStatus` call: its events are the start of the span, the
events of the original hook and `End`, so that a span the original hook set no
status on is ended with the zero status (code 0, empty message). When the
original hook returns a non-nil error, the wrapped hook adds one `SetStatus`
call if the method `Error()` of the error returns and none if it panics. -/
theorem tracer_sets_status_only_on_error {σ : Type} (ctx : Ctx) (fn : Hook σ)
    (cmd : Cmder) (w : World σ)
    (err : Option GoError) (h : (fn cmd (afterStart w)).outcome = .ret err) :
    (err = none →
      (PerCommandTracer ctx fn cmd w).events.countP Event.isSetStatus
        = (fn cmd (afterStart w)).events.countP Event.isSetStatus ∧
      (PerCommandTracer ctx fn cmd w).events
        = (Event.startSpan ctx ("redis-go/" ++ cmd.Name) w.nextSpanID
            :: (fn cmd (afterStart w)).events) ++ [Event.endSpan w.nextSpanID] ∧
      ((∀ st, Event.setStatus w.nextSpanID st ∉ (fn cmd (afterStart w)).events) →
        spanStatus w.nextSpanID
            (Event.startSpan ctx ("redis-go/" ++ cmd.Name) w.nextSpanID
              :: (fn cmd (afterStart w)).events)
          = { Code := 0, Message := "" })) ∧
    (∀ (e : GoError) (m : String), err = some e → e.message = .ret m →
      (PerCommandTracer ctx fn cmd w).events.countP Event.isSetStatus
        = (fn cmd (afterStart w)).events.countP Event.isSetStatus + 1) ∧
    (∀ (e : GoError) (v : String), err = some e → e.message = .panic v →
      (PerCommandTracer ctx fn cmd w).events.countP Event.isSetStatus
        = (fn cmd (afterStart w)).events.countP Event.isSetStatus) := by
  refine ⟨?_, ?_, ?_⟩
  · intro hn
    rw [hn] at h
    rw [run_of_nil ctx fn cmd w h]
    refine ⟨?_, by simp, fun hno => ?_⟩
    · simp [List.countP_cons, List.countP_append, Event.isSetStatus]
    · apply spanStatus_of_no_set
      intro st hmem
      rcases List.mem_cons.mp hmem with hh | hh
      · cases hh
      · exact hno st hh
  · intro e m he hm
    rw [he] at h
    rw [run_of_error ctx fn cmd w e m h hm]
    simp [List.countP_cons, List.countP_append, Event.isSetStatus]
  · intro e v he hm
    rw [he] at h
    rw [run_of_broken_error ctx fn cmd w e v h hm]
    simp [List.countP_cons, Event.isSetStatus]

/-- Witness of C5, amended: the scenario of the specification, command `HSET`
and an inner hook that returns nil. -/
theorem tracer_sets_status_only_on_error_witness :
    (PerCommandTracer Ctx.background hookNil ⟨"HSET", []⟩ world0).events
      = [Event.startSpan Ctx.background "redis-go/HSET" 0, Event.endSpan 0] ∧
    spanStatus 0 [Event.startSpan Ctx.background "redis-go/HSET" 0]
      = { Code := 0, Message := "" } ∧
    (PerCommandTracer Ctx.background hookNil ⟨"HSET", []⟩ world0).events.countP
      Event.isSetStatus = 0 :=
  have H := (tracer_sets_status_only_on_error Ctx.background hookNil ⟨"HSET", []⟩ world0
    none rfl).1 rfl
  ⟨H.2.1, H.2.2 (fun _ hm => by cases hm), H.1⟩

/-- C6, as stated, fails: a hook that panics leaves the wrapped hook with its
span started and not ended; the only event is the start of the span and the
panic goes on to the caller. -/
theorem tracer_leaves_span_open_on_panic :
    (PerCommandTracer Ctx.background hookPanic ⟨"GET", []⟩ world0).events
      = [Event.startSpan Ctx.background "redis-go/GET" 0] ∧
    Event.endSpan 0 ∉ (PerCommandTracer Ctx.background hookPanic ⟨"GET", []⟩ world0).events ∧
    (PerCommandTracer Ctx.background hookPanic ⟨"GET", []⟩ world0).outcome = .panic "boom" := by
  have H := run_of_panic Ctx.background hookPanic ⟨"GET", []⟩ world0 "boom" rfl
  rw [H]
  refine ⟨rfl, ?_, rfl⟩
  simp [hookPanic]

/-- C6, amended: on the exit paths on which the original hook returns nil, or
returns an error whose method `Error()` returns, the last call of the wrapped
hook is `End` on the span it started. When the original hook panics, or returns
an error whose method `Error()` panics, the wrapped hook makes no call after
that: the span is left open and the panic goes on to the caller. -/
theorem tracer_ends_span_on_return {σ : Type} (ctx : Ctx) (fn : Hook σ)
    (cmd : Cmder) (w : World σ) :
    (∀ err, (fn cmd (afterStart w)).outcome = .ret err →
      (∀ e, err = some e → ∃ m, e.message = .ret m) →
      (PerCommandTracer ctx fn cmd w).events.head?
        = some (Event.startSpan ctx ("redis-go/" ++ cmd.Name) w.nextSpanID) ∧
      (PerCommandTracer ctx fn cmd w).events.getLast? = some (Event.endSpan w.nextSpanID) ∧
      (PerCommandTracer ctx fn cmd w).outcome = .ret err) ∧
    (∀ v, (fn cmd (afterStart w)).outcome = .panic v →
      (PerCommandTracer ctx fn cmd w).events
        = Event.startSpan ctx ("redis-go/" ++ cmd.Name) w.nextSpanID
          :: (fn cmd (afterStart w)).events ∧
      (PerCommandTracer ctx fn cmd w).outcome = .panic v) ∧
    (∀ e v, (fn cmd (afterStart w)).outcome = .ret (some e) → e.message = .panic v →
      (PerCommandTracer ctx fn cmd w).events
        = Event.startSpan ctx ("redis-go/" ++ cmd.Name) w.nextSpanID
          :: (fn cmd (afterStart w)).events ∧
      (PerCommandTracer ctx fn cmd w).outcome = .panic v) := by
  refine ⟨?_, ?_, ?_⟩
  · intro err h hmsg
    refine ⟨head_eq ctx fn cmd w, ?_⟩
    cases err with
    | none =>
      rw [run_of_nil ctx fn cmd w h]
      exact ⟨getLast_snoc _ _ _, rfl⟩
    | some e =>
      obtain ⟨m, hm⟩ := hmsg e rfl
      rw [run_of_error ctx fn cmd w e m h hm]
      exact ⟨getLast_snoc2 _ _ _ _, rfl⟩
  · intro v h
    rw [run_of_panic ctx fn cmd w v h]
    exact ⟨rfl, rfl⟩
  · intro e v h hm
    rw [run_of_broken_error ctx fn cmd w e v h hm]
    exact ⟨rfl, rfl⟩

/-- Witness of C6, amended: a hook that returns an error. -/
theorem tracer_ends_span_on_return_witness :
    (PerCommandTracer Ctx.background (hookErr connRefused) ⟨"HGET", []⟩ world0).events.getLast?
      = some (Event.endSpan world0.nextSpanID) :=
  ((tracer_ends_span_on_return Ctx.background (hookErr connRefused) ⟨"HGET", []⟩ world0).1
    (some connRefused) rfl (fun e he => ⟨"connection refused", by cases he; rfl⟩)).2.1

/-- C10, as stated, fails: with a hook that returns a non-nil error whose method
`Error()` panics, the events of one call are the start of the span and the entry
into the hook; no status is set, the span is not ended and nothing is returned. -/
theorem tracer_stops_after_inner_call_when_error_method_panics :
    (probe (hookErr brokenError) ⟨"HGET", []⟩ (afterStart world0)).outcome
      = .ret (some brokenError) ∧
    (PerCommandTracer Ctx.background (probe (hookErr brokenError)) ⟨"HGET", []⟩ world0).events
      = [Event.startSpan Ctx.background "redis-go/HGET" 0, Event.invoke ⟨"HGET", []⟩] ∧
    (PerCommandTracer Ctx.background (probe (hookErr brokenError)) ⟨"HGET", []⟩ world0).outcome
      = .panic "nil pointer dereference" := by
  rw [run_of_broken_error Ctx.background (probe (hookErr brokenError)) ⟨"HGET", []⟩ world0
    brokenError "nil pointer dereference" rfl rfl]
  exact ⟨rfl, rfl, rfl⟩

/-- C10, amended (bracketing): when the original hook returns nil, or returns an
error whose method `Error()` returns, one invocation of the wrapped hook enters
it exactly once, with the command the wrapped hook received, after the span was
started and before any later call: the events are the start of the span, the
entry into the original hook on `cmd`, the events of the original hook,
`SetStatus` if the error is non-nil, and `End`; then the error is returned. -/
theorem tracer_brackets_inner_call {σ : Type} (ctx : Ctx) (fn : Hook σ)
    (cmd : Cmder) (w : World σ)
    (err : Option GoError) (h : (fn cmd (afterStart w)).outcome = .ret err)
    (hmsg : ∀ e, err = some e → ∃ m, e.message = .ret m) :
    (err = none →
      (PerCommandTracer ctx (probe fn) cmd w).events
        = Event.startSpan ctx ("redis-go/" ++ cmd.Name) w.nextSpanID
          :: Event.invoke cmd
          :: ((fn cmd (afterStart w)).events ++ [Event.endSpan w.nextSpanID])) ∧
    (∀ (e : GoError) (m : String), err = some e → e.message = .ret m →
      (PerCommandTracer ctx (probe fn) cmd w).events
        = Event.startSpan ctx ("redis-go/" ++ cmd.Name) w.nextSpanID
          :: Event.invoke cmd
          :: ((fn cmd (afterStart w)).events
            ++ [Event.setStatus w.nextSpanID
                  { Code := int32 trace.StatusCodeUnknown, Message := m },
                Event.endSpan w.nextSpanID])) ∧
    (PerCommandTracer ctx (probe fn) cmd w).events.countP Event.isInvoke
      = (fn cmd (afterStart w)).events.countP Event.isInvoke + 1 ∧
    (PerCommandTracer ctx (probe fn) cmd w).outcome = .ret err ∧
    (PerCommandTracer ctx (probe fn) cmd w).world = (fn cmd (afterStart w)).world := by
  have hp : (probe fn cmd (afterStart w)).outcome = .ret err := h
  cases err with
  | none =>
    rw [run_of_nil ctx (probe fn) cmd w hp]
    refine ⟨fun _ => (by simp [probe]), fun e m he => (by cases he), ?_, rfl, rfl⟩
    simp [probe, List.countP_cons, List.countP_append, Event.isInvoke]
  | some e =>
    obtain ⟨m, hm⟩ := hmsg e rfl
    rw [run_of_error ctx (probe fn) cmd w e m hp hm]
    refine ⟨fun hc => (by cases hc), ?_, ?_, rfl, rfl⟩
    · intro e1 m1 he hm1
      cases he
      rw [hm] at hm1
      cases hm1
      simp [probe, int32_unknown]
    · simp [probe, List.countP_cons, List.countP_append, Event.isInvoke]

/-- Witness of C10, amended: the scenario with an error. -/
theorem tracer_brackets_inner_call_witness :
    (PerCommandTracer Ctx.background (probe (hookErr connRefused)) ⟨"HGET", []⟩ world0).events
      = [Event.startSpan Ctx.background "redis-go/HGET" 0,
         Event.invoke ⟨"HGET", []⟩,
         Event.setStatus 0 { Code := 2, Message := "connection refused" },
         Event.endSpan 0] :=
  (tracer_brackets_inner_call Ctx.background (hookErr connRefused) ⟨"HGET", []⟩ world0
    (some connRefused) rfl (fun e he => ⟨"connection refused", by cases he; rfl⟩)).2.1
    connRefused "connection refused" rfl rfl

/-- C8, as stated, fails twice: commands executed through a pipeline of the
client returned by `NewClient` go through the pipeline hook, which `NewClient`
does not wrap, and start no span; and for the empty address the client is
configured with the default address of the library, not with `addr`. -/
theorem newClient_leaves_pipeline_untraced :
    ((NewClient hookNil pipelineNil pipelineNil Ctx.background ":6379").Pipelined
        [⟨"HSET", []⟩, ⟨"HGET", []⟩] world0).events = [] ∧
    ((NewClient hookNil pipelineNil pipelineNil Ctx.background ":6379").Pipelined
        [⟨"HSET", []⟩, ⟨"HGET", []⟩] world0).events.countP Event.isStart = 0 ∧
    (NewClient hookNil pipelineNil pipelineNil Ctx.background "").opt.Addr
      = "localhost:6379" ∧
    (NewClient hookNil pipelineNil pipelineNil Ctx.background "").opt.Addr ≠ "" := by
  refine ⟨rfl, rfl, ?_, ?_⟩
  · simp [NewClient, redis.NewClient, redis.Client.WithContext, redis.Client.WrapProcess,
      redis.Options.init]
  · simp [NewClient, redis.NewClient, redis.Client.WithContext, redis.Client.WrapProcess,
      redis.Options.init]

/-- C8, amended (instrumented client construction): `NewClient(ctx, addr)`
returns a client whose address is `addr` when `addr` is not empty and the
default address of the library when it is, whose context is `ctx`, and whose
hook for single commands is `PerCommandTracer(ctx)` applied once to the default
hook. Every command executed through that hook starts, as its first event, a
span named `redis-go/<name>` under `ctx`, and when the default hook returns nil,
or an error whose method `Error()` returns, exactly one `StartSpan` and one
`End` are added to the calls of the default hook. The pipeline hooks are the
default ones: commands executed through a pipeline or a transaction do not go
through the tracing wrapper. -/
theorem newClient_installs_tracer {σ : Type} (defaultProcess : Hook σ)
    (defaultProcessPipeline defaultProcessTxPipeline : PipelineHook σ)
    (ctx : Ctx) (addr : String) :
    (addr ≠ "" →
      (NewClient defaultProcess defaultProcessPipeline defaultProcessTxPipeline
        ctx addr).opt.Addr = addr) ∧
    (addr = "" →
      (NewClient defaultProcess defaultProcessPipeline defaultProcessTxPipeline
        ctx addr).opt.Addr = "localhost:6379") ∧
    (NewClient defaultProcess defaultProcessPipeline defaultProcessTxPipeline
      ctx addr).Context = ctx ∧
    (NewClient defaultProcess defaultProcessPipeline defaultProcessTxPipeline
      ctx addr).process = PerCommandTracer ctx defaultProcess ∧
    (∀ (cmd : Cmder) (w : World σ),
      ((NewClient defaultProcess defaultProcessPipeline defaultProcessTxPipeline
        ctx addr).Process cmd w).events.head?
        = some (Event.startSpan ctx ("redis-go/" ++ cmd.Name) w.nextSpanID)) ∧
    (∀ (cmd : Cmder) (w : World σ) (err : Option GoError),
      (defaultProcess cmd (afterStart w)).outcome = .ret err →
      (∀ e, err = some e → ∃ m, e.message = .ret m) →
      ((NewClient defaultProcess defaultProcessPipeline defaultProcessTxPipeline
        ctx addr).Process cmd w).events.countP Event.isStart
        = (defaultProcess cmd (afterStart w)).events.countP Event.isStart + 1 ∧
      ((NewClient defaultProcess defaultProcessPipeline defaultProcessTxPipeline
        ctx addr).Process cmd w).events.countP Event.isEnd
        = (defaultProcess cmd (afterStart w)).events.countP Event.isEnd + 1 ∧
      ((NewClient defaultProcess defaultProcessPipeline defaultProcessTxPipeline
        ctx addr).Process cmd w).outcome = .ret err) ∧
    (∀ (cmds : List Cmder) (w : World σ),
      (NewClient defaultProcess defaultProcessPipeline defaultProcessTxPipeline
        ctx addr).Pipelined cmds w = defaultProcessPipeline cmds w ∧
      (NewClient defaultProcess defaultProcessPipeline defaultProcessTxPipeline
        ctx addr).TxPipelined cmds w = defaultProcessTxPipeline cmds w) := by
  refine ⟨?_, ?_, rfl, rfl, ?_, ?_, fun cmds w => ⟨rfl, rfl⟩⟩
  · intro ha
    simp [NewClient, redis.NewClient, redis.Client.WithContext, redis.Client.WrapProcess,
      redis.Options.init, ha]
  · intro ha
    simp [NewClient, redis.NewClient, redis.Client.WithContext, redis.Client.WrapProcess,
      redis.Options.init, ha]
  · intro cmd w
    exact head_eq ctx defaultProcess cmd w
  · intro cmd w err h hmsg
    have hp : (NewClient defaultProcess defaultProcessPipeline defaultProcessTxPipeline
        ctx addr).Process cmd w = PerCommandTracer ctx defaultProcess cmd w := rfl
    rw [hp]
    cases err with
    | none =>
      rw [run_of_nil ctx defaultProcess cmd w h]
      simp [List.countP_cons, List.countP_append, Event.isStart, Event.isEnd]
    | some e =>
      obtain ⟨m, hm⟩ := hmsg e rfl
      rw [run_of_error ctx defaultProcess cmd w e m h hm]
      simp [List.countP_cons, List.countP_append, Event.isStart, Event.isEnd]

/-- Witness of C8, amended: the client of the example test, one `HSET` through it. -/
theorem newClient_installs_tracer_witness :
    (NewClient hookNil pipelineNil pipelineNil Ctx.background ":6379").opt.Addr = ":6379" ∧
    ((NewClient hookNil pipelineNil pipelineNil Ctx.background ":6379").Process
        ⟨"HSET", []⟩ world0).events
      = [Event.startSpan Ctx.background "redis-go/HSET" 0, Event.endSpan 0] ∧
    ((NewClient hookNil pipelineNil pipelineNil Ctx.background ":6379").Process
        ⟨"HSET", []⟩ world0).events.countP Event.isStart = 0 + 1 :=
  ⟨(newClient_installs_tracer hookNil pipelineNil pipelineNil Ctx.background ":6379").1
      (by decide),
   by
    have hp : (NewClient hookNil pipelineNil pipelineNil Ctx.background ":6379").Process
        ⟨"HSET", []⟩ world0
        = PerCommandTracer Ctx.background hookNil ⟨"HSET", []⟩ world0 := rfl
    rw [hp, run_of_nil Ctx.background hookNil ⟨"HSET", []⟩ world0 rfl]
    rfl,
   ((newClient_installs_tracer hookNil pipelineNil pipelineNil Ctx.background
      ":6379").2.2.2.2.2.1 ⟨"HSET", []⟩ world0 none rfl (fun e he => by cases he)).1⟩

/-- C9 (statelessness): one invocation of the wrapped hook is, in every world,
a function of the context, of the name of the command, of the identifier the
tracing library draws for the span and of what the original hook does in that
invocation: the start of the span under `ctx`, the events of the original hook,
and the calls and the outcome `closing` gives; the world is left as the original
hook left it. So two invocations, in any two worlds (after any two histories)
and around any two hooks, produce the same events, up to any renaming of span
identifiers that sends the span of the one to the span of the other, and the
same outcome, as soon as the commands have the same name and the original hooks
produce the same events up to that renaming and the same outcome. The events of
a sequence of calls are the concatenation of the events of the calls, each
written from its own command, span and inner run. -/
theorem tracer_keeps_no_state {σ : Type} (ctx : Ctx) (fn fn1 : Hook σ) (cmd cmd1 : Cmder)
    (w w1 : World σ) (ρ : Nat → Nat) (hname : cmd.Name = cmd1.Name)
    (hid : ρ w.nextSpanID = w1.nextSpanID)
    (hout : (fn cmd (afterStart w)).outcome = (fn1 cmd1 (afterStart w1)).outcome)
    (hev : (fn cmd (afterStart w)).events.map (Event.rename ρ)
      = (fn1 cmd1 (afterStart w1)).events) :
    (PerCommandTracer ctx fn cmd w).events.map (Event.rename ρ)
      = (PerCommandTracer ctx fn1 cmd1 w1).events ∧
    (PerCommandTracer ctx fn cmd w).outcome = (PerCommandTracer ctx fn1 cmd1 w1).outcome ∧
    (∀ (c : Cmder) (w2 : World σ),
      PerCommandTracer ctx fn c w2 =
        { events := Event.startSpan ctx ("redis-go/" ++ c.Name) w2.nextSpanID
            :: ((fn c (afterStart w2)).events
              ++ (closing w2.nextSpanID (fn c (afterStart w2)).outcome).1)
          outcome := (closing w2.nextSpanID (fn c (afterStart w2)).outcome).2
          world := (fn c (afterStart w2)).world }) ∧
    (∀ (cmds : List Cmder) (w2 : World σ),
      (runAll (PerCommandTracer ctx fn) cmds w2).events
        = (tracedCalls ctx fn cmds w2).flatten) := by
  refine ⟨?_, ?_, fun c w2 => run_eq ctx fn c w2, fun cmds w2 => runAll_traced ctx fn cmds w2⟩
  · rw [run_eq, run_eq]
    simp only [List.map_cons, List.map_append, Event.rename, hev, hid, hname, hout,
      (closing_rename ρ w.nextSpanID (fn1 cmd1 (afterStart w1)).outcome).1]
  · rw [run_eq, run_eq]
    simp only [hout]
    rw [(closing_rename ρ w.nextSpanID (fn1 cmd1 (afterStart w1)).outcome).2, hid]

/-- Witness of C9: the same command in a fresh world and in a world where 41
spans were started before, with different arguments. -/
theorem tracer_keeps_no_state_witness :
    (PerCommandTracer Ctx.background (hookErr connRefused) ⟨"HGET", ["k"]⟩ world0).events.map
        (Event.rename fun i => i + 41)
      = (PerCommandTracer Ctx.background (hookErr connRefused) ⟨"HGET", ["k2"]⟩
          { nextSpanID := 41, ext := () }).events ∧
    (PerCommandTracer Ctx.background (hookErr connRefused) ⟨"HGET", ["k2"]⟩
        { nextSpanID := 41, ext := () }).events
      = [Event.startSpan Ctx.background "redis-go/HGET" 41,
         Event.setStatus 41 { Code := 2, Message := "connection refused" },
         Event.endSpan 41] :=
  ⟨(tracer_keeps_no_state Ctx.background (hookErr connRefused) (hookErr connRefused)
      ⟨"HGET", ["k"]⟩ ⟨"HGET", ["k2"]⟩ world0 { nextSpanID := 41, ext := () }
      (fun i => i + 41) rfl rfl rfl rfl).1,
   by
    rw [run_of_error Ctx.background (hookErr connRefused) ⟨"HGET", ["k2"]⟩
      { nextSpanID := 41, ext := () } connRefused "connection refused" rfl rfl]
    rfl⟩

end OCRedis
